import Mathlib

/-!
# Verification of the backend-service supervision subsystem

Shallow embedding of the process-supervision, log-aggregation and
endpoint-discovery subsystem of the `desktop/src-tauri` crate
(`src/tauri_handlers/backends.rs` and `src/utils/process_monitor.rs`),
together with proofs of the spec's testable properties.

Conventions:
* Rust `String` is Lean `String`; substring/suffix predicates are computed
  over `String.toList` so every definition is executable by `decide`/`rfl`.
* Rust `u32`/`u16` process ids and ports are `Nat` (their values never
  overflow in the modelled operations, which only store and compare them).
* `HashMap<String, _>` registries are association lists with unique keys
  (the registry operations themselves preserve key uniqueness).
* Fallible Rust functions returning `Result<T, String>` become
  `Except String T`.
-/

namespace Backends

/-- `listPrefixOf n h` is the Rust `<[u8]>::starts_with` on char lists:
`n` is a prefix of `h`. -/
def listPrefixOf : List Char → List Char → Bool
  | [], _ => true
  | _ :: _, [] => false
  | a :: as, b :: bs => a == b && listPrefixOf as bs

/-- `listInfixOf n h`: `n` occurs as a contiguous substring of `h`
(the semantics of Rust `str::contains` for string patterns). -/
def listInfixOf (n : List Char) : List Char → Bool
  | [] => listPrefixOf n []
  | c :: t => listPrefixOf n (c :: t) || listInfixOf n t

/-- Rust `str::contains(pat)` (substring containment). -/
def strContains (hay pat : String) : Bool :=
  listInfixOf pat.toList hay.toList

/-- Rust `str::ends_with(pat)`. -/
def strEndsWith (hay pat : String) : Bool :=
  listPrefixOf pat.toList.reverse hay.toList.reverse

/-- Rust `str::trim_end_matches('/')`: remove every trailing `'/'`. -/
def trimTrailingSlashes (s : String) : String :=
  String.mk ((s.toList.reverse.dropWhile (fun c => c == '/')).reverse)

/-- Rust `str::trim_end()`: remove trailing whitespace characters. -/
def strTrimEnd (s : String) : String :=
  String.mk ((s.toList.reverse.dropWhile Char.isWhitespace).reverse)

/-- Scanner for Rust `String::replace(pat, "")` with a non-empty pattern:
scan left to right, deleting each (non-overlapping) occurrence of `pat`.
Structural recursion on the fuel; each step consumes at least one
character, so fuel equal to the input length never runs out. -/
def removeOccurrencesAux (pat : List Char) : Nat → List Char → List Char
  | 0, l => l
  | _ + 1, [] => []
  | fuel + 1, c :: rest =>
    if listPrefixOf pat (c :: rest) then
      removeOccurrencesAux pat fuel (List.drop pat.length (c :: rest))
    else
      c :: removeOccurrencesAux pat fuel rest

/-- Rust `String::replace(pat, "")` (all non-overlapping occurrences of
`pat` removed, scanning left to right). For the empty pattern Rust's
`replace` with an empty replacement returns the string unchanged. -/
def strRemoveAll (s pat : String) : String :=
  if pat.toList = [] then s
  else String.mk (removeOccurrencesAux pat.toList s.toList.length s.toList)

/-! ## Data model: `BackendService` (backends.rs, `struct BackendService`) -/

/-- One configured, possibly-running backend service
(`BackendService` in backends.rs). `env_vars` is a `HashMap` in Rust;
modelled as an association list (its ordering is irrelevant to every
claim, the operations only store or replace it wholesale). -/
structure BackendService where
  id : String
  name : String
  command : String
  environment : String
  auto_start : Bool
  status : String
  env_file : Option String := none
  env_vars : Option (List (String × String)) := none
  working_directory : Option String := none
  host : Option String := none
  port : Option Nat := none
  url : Option String := none
  pid : Option Nat := none
  started_at : Option String := none
  error : Option String := none
  deriving Repr, DecidableEq, Inhabited

/-- `updateFirst p f l` mutates the first element satisfying `p`, the
semantics of Rust's `backends.iter_mut().find(p)` followed by in-place
mutation `f` of the found element. -/
def updateFirst (p : α → Bool) (f : α → α) : List α → List α
  | [] => []
  | a :: as => if p a then f a :: as else a :: updateFirst p f as

/-! ## URL Resolver selection (backends.rs, `select_best_url`) -/

/-- The candidate-selection stage of `select_best_url` (backends.rs,
priority 1 / priority 2 / priority 3 / fallback-to-last chain over the
`selected_url` mutable option). -/
def select_candidate (urls : List String) : Option String :=
  if urls.isEmpty then none
  else
    let s1 := urls.find? (fun u => strEndsWith u "/mcp" || strEndsWith u "/sse")
    let s2 := if s1.isNone then
        urls.find? (fun u => strContains u "/mcp" || strContains u "/sse")
      else s1
    let s3 := if s2.isNone then
        urls.find? (fun u =>
          strContains u "docs" || strContains u "openapi" || strContains u "redoc")
      else s2
    if s3.isNone then urls.getLast? else s3

/-- The final "MCP server" adjustment of `select_best_url` (backends.rs):
if the originating log line mentions "MCP server" and the chosen URL has
neither `/mcp` nor `/sse`, trim trailing slashes and append `/mcp` when
the line mentions "streamable-http", else `/sse` when it mentions "sse",
else `/mcp`. -/
def mcpAdjust (line url : String) : String :=
  if strContains line "MCP server" && !strContains url "/mcp"
      && !strContains url "/sse" then
    let base := trimTrailingSlashes url
    if strContains line "streamable-http" then base ++ "/mcp"
    else if strContains line "sse" then base ++ "/sse"
    else base ++ "/mcp"
  else url

/-- `select_best_url(urls, original_log_line)` from backends.rs:
priority selection over the candidates followed by the MCP-suffix
adjustment driven by the originating log line. -/
def select_best_url (urls : List String) (original_log_line : String) :
    Option String :=
  match select_candidate urls with
  | none => none
  | some url => some (mcpAdjust original_log_line url)

/-! ## Error-message cleaning (backends.rs, `clean_error_message`) -/

/-- Index of the last occurrence of `": "` in `s` (`str::rfind(": ")`),
as a character index. All characters of the pattern are ASCII, so byte
positions in the Rust original and char positions here cut the string at
the same places. -/
def rfindColonSpace (s : List Char) : Option Nat :=
  (((List.range s.length).filter
    (fun i => listPrefixOf [':', ' '] (s.drop i)))).getLast?

/-- `clean_error_message` from backends.rs: for a message shaped
`file: line: command: error`, extract `command: error`; otherwise return
the raw message unchanged. -/
def clean_error_message (raw_message : String) : String :=
  let raw := raw_message.toList
  match rfindColonSpace raw with
  | none => raw_message
  | some lastColon =>
    let afterLastColon := raw.drop (lastColon + 2)
    let beforeLastColon := raw.take lastColon
    match rfindColonSpace beforeLastColon with
    | none => raw_message
    | some secondLastColon =>
      String.mk (beforeLastColon.drop (secondLastColon + 2)
        ++ [':', ' '] ++ afterLastColon)

/-! ## Log Registry (process_monitor.rs) -/

/-- `LogEntry` from process_monitor.rs: `(timestamp, content, process_id)`. -/
structure LogEntry where
  timestamp : Int
  content : String
  process_id : String
  deriving Repr, DecidableEq, Inhabited

/-- `LogBuffer` from process_monitor.rs: a `VecDeque` of entries plus the
capacity `max_size`. The deque is a list, front first. -/
structure LogBuffer where
  entries : List LogEntry
  max_size : Nat
  deriving Repr, DecidableEq, Inhabited

/-- `LogBuffer::new(max_size)`. -/
def LogBuffer.new (max_size : Nat) : LogBuffer :=
  { entries := [], max_size := max_size }

/-- `LogBuffer::add`: when the buffer is at (or beyond) capacity,
`pop_front` the oldest entry, then `push_back` the new one.
`List.tail` of `[]` is `[]`, matching `pop_front` on an empty deque. -/
def LogBuffer.add (buf : LogBuffer) (entry : LogEntry) : LogBuffer :=
  let entries :=
    if buf.entries.length ≥ buf.max_size then buf.entries.tail
    else buf.entries
  { buf with entries := entries ++ [entry] }

/-- `LogBuffer::get_logs(count)`: with `Some n`, `n < len`, the most
recent `n` entries (skip `len - n`); otherwise all entries, oldest
first. -/
def LogBuffer.get_logs (buf : LogBuffer) (count : Option Nat) : List LogEntry :=
  match count with
  | some n =>
    if n < buf.entries.length then buf.entries.drop (buf.entries.length - n)
    else buf.entries
  | none => buf.entries

/-- The `LogStorage` map (`HashMap<String, LogBuffer>`), as an
association list with unique keys. -/
def LogStore := List (String × LogBuffer)

/-- `HashMap::get` on the log storage. -/
def LogStore.lookup (st : LogStore) (process_id : String) : Option LogBuffer :=
  (st.find? (fun kv => kv.1 == process_id)).map (·.2)

/-- `register_process` from process_monitor.rs: create a 10,000-entry
buffer if the id is absent; return whether a new buffer was created. -/
def register_process (st : LogStore) (process_id : String) : LogStore × Bool :=
  if (st.lookup process_id).isSome then (st, false)
  else ((process_id, LogBuffer.new 10000) :: st, true)

/-- `unregister_process` from process_monitor.rs: `HashMap::remove`,
returning whether the key was present. -/
def unregister_process (st : LogStore) (process_id : String) : LogStore × Bool :=
  (st.filter (fun kv => !(kv.1 == process_id)), (st.lookup process_id).isSome)

/-- Appending one log line to a registered process's buffer
(`storage.get_mut(process_id)` followed by `buffer.add(entry)` — the
pattern used by every log-pipeline call site in backends.rs); a no-op
when the id is not registered. -/
def appendLog (st : LogStore) (process_id : String) (entry : LogEntry) :
    LogStore :=
  updateFirst (fun kv => kv.1 == process_id)
    (fun kv => (kv.1, kv.2.add entry)) st

/-- `get_process_logs` from process_monitor.rs: read the buffer of
`process_id` (empty when unregistered); read-only. -/
def get_process_logs (st : LogStore) (process_id : String)
    (count : Option Nat) : List LogEntry :=
  match st.lookup process_id with
  | some buffer => buffer.get_logs count
  | none => []

/-- Folding a sequence of appends for one process id. -/
def appendAll (st : LogStore) (process_id : String) (entries : List LogEntry) :
    LogStore :=
  entries.foldl (fun s e => appendLog s process_id e) st

/-- Folding `LogBuffer.add` over a list of entries. -/
def LogBuffer.addAll (buf : LogBuffer) (entries : List LogEntry) : LogBuffer :=
  entries.foldl LogBuffer.add buf

/-! ## Service Supervisor persistence steps (backends.rs) -/

/-- The mutation `start_backend_service_impl` applies to the service it
started (backends.rs, the reload-before-write block): status `running`,
pid = the observed OS pid, started_at = now, error cleared; every other
field (host, port, url included) untouched. -/
def runningUpdate (b : BackendService) (pid : Nat) (now : String) :
    BackendService :=
  { b with status := "running", pid := some pid,
           started_at := some now, error := none }

/-- The final persistence step of `start_backend_service_impl`
(backends.rs): reload the config from disk (the argument `cfg` is that
freshly re-read config, whatever concurrent writers put in it), locate
the service by id with `iter_mut().find`, apply `runningUpdate`, and save
the whole collection; `Err` when the id has disappeared. Returns the
saved collection together with the returned record. -/
def startFinalize (cfg : List BackendService) (id : String) (pid : Nat)
    (now : String) : Except String (List BackendService × BackendService) :=
  match cfg.find? (fun b => b.id == id) with
  | some b =>
    Except.ok
      (updateFirst (fun b => b.id == id) (fun b => runningUpdate b pid now) cfg,
       runningUpdate b pid now)
  | none =>
    Except.error ("Backend with id " ++ id ++ " not found in config after start")

/-- The per-service reconciliation step of `initialize_backends`
(backends.rs): a service persisted as `running` whose pid is absent or
not alive (`alive` is the `is_process_running` liveness probe) is set to
`stopped` with pid, url, host, port cleared. Note the source does not
touch `started_at` here. -/
def reconcileOne (alive : Nat → Bool) (b : BackendService) : BackendService :=
  if b.status == "running" then
    let pid_running := match b.pid with
      | some pid => alive pid
      | none => false
    if !pid_running then
      { b with status := "stopped", pid := none, url := none,
               host := none, port := none }
    else b
  else b

/-- The startup-reconciliation loop of `initialize_backends`
(backends.rs): every persisted service is reconciled; the collection is
saved when anything changed (when nothing changed, the file already holds
exactly this collection). The second component is the `modified` flag. -/
def reconcileBackends (alive : Nat → Bool) (cfg : List BackendService) :
    List BackendService × Bool :=
  (cfg.map (reconcileOne alive), cfg.any (fun b => decide (reconcileOne alive b ≠ b)))

/-- Result of feeding one log line through the command-not-found branch
of `log_processor` (backends.rs): the possibly rewritten config, whether
`kill_process` was requested for the backend, and whether processing of
this line stopped (the early `return`) before the PID/URL extraction
steps. -/
structure LineStepResult where
  config : List BackendService
  killed : Bool
  halted : Bool
  deriving Repr, DecidableEq

/-- The command-not-found handling of `log_processor` (backends.rs): the
raw line first has every occurrence of `"<script path>: "` removed; if
the result, right-trimmed, ends with `": command not found"`, the
service's status becomes `error` with the cleaned message, its pid is
cleared, the process is killed via the Process Registry, and processing
of this line stops. -/
def commandNotFoundStep (script_path : String) (raw_line : String)
    (backend_id : String) (cfg : List BackendService) : LineStepResult :=
  let line := strRemoveAll raw_line (script_path ++ ": ")
  if strEndsWith (strTrimEnd line) ": command not found" then
    { config := updateFirst (fun b => b.id == backend_id)
        (fun b => { b with status := "error",
                           error := some (clean_error_message line),
                           pid := none }) cfg,
      killed := true, halted := true }
  else
    { config := cfg, killed := false, halted := false }

/-- `create_backend_service_impl` (backends.rs). `freshId` stands for
`Uuid::new_v4().to_string()` (a 36-character hyphenated string, never
empty) and `validate` for the `validate_command_input` collaborator. The
second component is the persisted collection after the call: it changes
only on the `Ok` path, because `save_backends_config` is only reached
there. -/
def createBackendService (cfg : List BackendService) (req : BackendService)
    (freshId : String) (validate : String → Except String Unit) :
    Except String BackendService × List BackendService :=
  if req.name = "" then (Except.error "Backend name is required", cfg)
  else if req.command = "" then (Except.error "Command is required", cfg)
  else if req.environment = "" then (Except.error "Environment is required", cfg)
  else if cfg.any (fun b => b.name == req.name) then
    (Except.error "A backend with this name already exists", cfg)
  else
    match validate req.command with
    | Except.error e => (Except.error ("Invalid command: " ++ e), cfg)
    | Except.ok _ =>
      let new_backend := { req with id := freshId, status := "stopped",
                                    pid := none, url := none, started_at := none }
      (Except.ok new_backend, cfg ++ [new_backend])

/-- `update_backend_service_impl` (backends.rs): locate the stored
service by the incoming record's id; validate the incoming command only
when it is non-empty; always overwrite name, command, environment,
auto_start and error; overwrite each of working_directory, env_file,
env_vars, host, port, url only when the incoming value is `some`; never
touch id, status, pid, started_at. Returns the updated record and the
saved collection. -/
def updateBackendService (cfg : List BackendService) (incoming : BackendService)
    (validate : String → Except String Unit) :
    Except String (BackendService × List BackendService) :=
  match cfg.findIdx? (fun b => b.id == incoming.id) with
  | none => Except.error "Backend not found"
  | some index =>
    match (if incoming.command ≠ "" then validate incoming.command
           else Except.ok ()) with
    | Except.error e => Except.error ("Invalid command: " ++ e)
    | Except.ok _ =>
      match cfg[index]? with
      | none => Except.error "Backend not found"
      | some old =>
        let upd :=
          { old with
            name := incoming.name
            command := incoming.command
            environment := incoming.environment
            auto_start := incoming.auto_start
            error := incoming.error
            working_directory :=
              if incoming.working_directory.isSome then incoming.working_directory
              else old.working_directory
            env_file :=
              if incoming.env_file.isSome then incoming.env_file
              else old.env_file
            env_vars :=
              if incoming.env_vars.isSome then incoming.env_vars
              else old.env_vars
            host := if incoming.host.isSome then incoming.host else old.host
            port := if incoming.port.isSome then incoming.port else old.port
            url := if incoming.url.isSome then incoming.url else old.url }
        Except.ok (upd, cfg.set index upd)

/-! ## URL Resolver debounce (backends.rs, the `log_processor` closure)

Discrete-time model of the debounce logic. Each candidate batch
(a log line in which the URL regex matched) extends the shared
`detected_urls` vector, overwrites the shared `last_line_with_url`, and
spawns a timer thread that sleeps 1500 ms and then runs the selection
over the shared state as it stands at fire time. The previously stored
`JoinHandle` is only `take`n and `unpark`ed — `std::thread::unpark` does
not interrupt `std::thread::sleep` and dropping a `JoinHandle` does not
stop the thread, so every spawned timer thread still fires and, when the
selection is `Some` and the backend exists, performs its own
reload-mutate-save. Batches are listed in arrival order with
millisecond arrival times. -/

/-- One candidate batch: arrival time (ms), the URLs found in the line
(in match order), and the clean log line they came from. -/
structure Batch where
  arrival : Nat
  urls : List String
  line : String
  deriving Repr, DecidableEq

/-- Contents of the shared `detected_urls` vector at time `t`: the
concatenated URLs of every batch that has arrived. -/
def accumulatedUrlsAt (batches : List Batch) (t : Nat) : List String :=
  (batches.filter (fun b => b.arrival ≤ t)).flatMap (·.urls)

/-- Contents of the shared `last_line_with_url` string at time `t`: the
line of the latest arrived batch (initially `String::new()`). -/
def lastLineAt (batches : List Batch) (t : Nat) : String :=
  match (batches.filter (fun b => b.arrival ≤ t)).getLast? with
  | some b => b.line
  | none => ""

/-- The selection each batch's timer thread computes when it fires,
1500 ms after the batch arrived, over the shared state at fire time. -/
def firedSelections (batches : List Batch) : List (Option String) :=
  batches.map (fun b =>
    select_best_url (accumulatedUrlsAt batches (b.arrival + 1500))
      (lastLineAt batches (b.arrival + 1500)))

/-- Number of persists performed by the debounce timer threads: one per
fired selection that produced a URL (each such thread reloads the
config, sets url/host/port on the service, and saves). -/
def debouncePersistCount (batches : List Batch) : Nat :=
  ((firedSelections batches).filter Option.isSome).length

/-! ## Helper lemmas -/

theorem updateFirst_cons_pos {p : α → Bool} {f : α → α} {a : α} {l : List α}
    (h : p a = true) : updateFirst p f (a :: l) = f a :: l := by
  simp [updateFirst, h]

theorem updateFirst_cons_neg {p : α → Bool} {f : α → α} {a : α} {l : List α}
    (h : p a = false) : updateFirst p f (a :: l) = a :: updateFirst p f l := by
  simp [updateFirst, h]

theorem LogBuffer.add_max_size (buf : LogBuffer) (e : LogEntry) :
    (buf.add e).max_size = buf.max_size := rfl

theorem LogBuffer.addAll_max_size (buf : LogBuffer) (l : List LogEntry) :
    (buf.addAll l).max_size = buf.max_size := by
  induction l generalizing buf with
  | nil => rfl
  | cons e l ih => simpa [LogBuffer.addAll] using ih (buf.add e)

/-- Core ring-buffer lemma: adding a list of entries to an empty buffer
of positive capacity `c` leaves exactly the last `c` entries, in order. -/
theorem LogBuffer.addAll_entries (c : Nat) (hc : 0 < c) (l : List LogEntry) :
    ((LogBuffer.new c).addAll l).entries = l.drop (l.length - c) := by
  induction l using List.reverseRecOn with
  | nil => simp [LogBuffer.addAll, LogBuffer.new]
  | append_singleton l e ih =>
    have hstep : (LogBuffer.new c).addAll (l ++ [e]) =
        ((LogBuffer.new c).addAll l).add e := by
      simp [LogBuffer.addAll, List.foldl_append]
    have hmax : ((LogBuffer.new c).addAll l).max_size = c :=
      LogBuffer.addAll_max_size _ _
    rw [hstep]
    unfold LogBuffer.add
    rw [ih, hmax]
    have hlendrop : (l.drop (l.length - c)).length = l.length - (l.length - c) := by
      simp
    by_cases hlc : l.length < c
    · have h1 : ¬ ((l.drop (l.length - c)).length ≥ c) := by omega
      have h2 : l.length - c = 0 := by omega
      have h3 : l.length + 1 - c = 0 := by omega
      rw [if_neg h1]
      simp [h2, h3]
    · have hge : l.length ≥ c := Nat.le_of_not_lt hlc
      have h1 : (l.drop (l.length - c)).length ≥ c := by omega
      have h2 : (l.drop (l.length - c)).tail = l.drop (l.length - c + 1) := by
        rw [List.tail_drop]
      have h3 : l.length - c + 1 = l.length + 1 - c := by omega
      have h4 : (l ++ [e]).drop (l.length + 1 - c) =
          l.drop (l.length + 1 - c) ++ [e] := by
        rw [List.drop_append_of_le_length]
        omega
      simp only [if_pos h1, h2, h3, List.length_append, List.length_cons,
        List.length_nil, Nat.zero_add, h4]

theorem LogStore.lookup_appendLog_self (st : LogStore) (pid : String)
    (e : LogEntry) :
    (appendLog st pid e).lookup pid = (st.lookup pid).map (fun b => b.add e) := by
  induction st with
  | nil => rfl
  | cons kv rest ih =>
    by_cases h : kv.1 == pid
    · simp [appendLog, updateFirst, LogStore.lookup, List.find?, h]
    · have h' : (kv.1 == pid) = false := by
        simpa using h
      simp only [appendLog, updateFirst, h', Bool.false_eq_true, if_false,
        LogStore.lookup, List.find?, h'] at ih ⊢
      exact ih

theorem LogStore.lookup_appendAll_self (st : LogStore) (pid : String)
    (es : List LogEntry) :
    (appendAll st pid es).lookup pid = (st.lookup pid).map (fun b => b.addAll es) := by
  induction es generalizing st with
  | nil =>
    cases h : st.lookup pid <;> simp [appendAll, LogBuffer.addAll, h]
  | cons e es ih =>
    have hstep : appendAll st pid (e :: es) = appendAll (appendLog st pid e) pid es := by
      simp [appendAll]
    rw [hstep, ih, LogStore.lookup_appendLog_self]
    cases h : st.lookup pid <;> simp [LogBuffer.addAll, h]

/-- **C3** (Ring buffer bound): after registering a process id with the
10,000-entry capacity and performing N appends with N > capacity,
`read(id, None)` returns exactly the capacity's worth of entries,
oldest-first, equal to the last 10,000 appended; insertion past capacity
evicts exactly the oldest entry, and the buffer never holds more than
10,000 entries after any sequence of appends. -/
theorem ringBufferBound (st : LogStore) (pid : String) (es : List LogEntry)
    (hreg : st.lookup pid = some (LogBuffer.new 10000))
    (hlen : 10000 < es.length) :
    get_process_logs (appendAll st pid es) pid none =
      es.drop (es.length - 10000) ∧
    (get_process_logs (appendAll st pid es) pid none).length = 10000 ∧
    (∀ buf : LogBuffer, ∀ e : LogEntry, buf.max_size = 10000 →
      10000 ≤ buf.entries.length →
      (buf.add e).entries = buf.entries.tail ++ [e]) ∧
    (∀ es₂ : List LogEntry, ∃ buf,
      (appendAll st pid es₂).lookup pid = some buf ∧
      buf.entries.length ≤ 10000) := by
  have hkey : (appendAll st pid es).lookup pid =
      some ((LogBuffer.new 10000).addAll es) := by
    rw [LogStore.lookup_appendAll_self, hreg]
    rfl
  have hentries := LogBuffer.addAll_entries 10000 (by omega) es
  refine ⟨?_, ?_, ?_, ?_⟩
  · simp [get_process_logs, hkey, LogBuffer.get_logs, hentries]
  · simp only [get_process_logs, hkey, LogBuffer.get_logs, hentries]
    simp only [List.length_drop]
    omega
  · intro buf e hmax hlenb
    unfold LogBuffer.add
    rw [hmax]
    simp [hlenb]
  · intro es₂
    refine ⟨(LogBuffer.new 10000).addAll es₂, ?_, ?_⟩
    · rw [LogStore.lookup_appendAll_self, hreg]
      rfl
    · rw [LogBuffer.addAll_entries 10000 (by omega) es₂]
      simp only [List.length_drop]
      omega

/-- Witness for **C3** at a concrete store and a concrete run of 10,001
appends. -/
theorem ringBufferBound_witness :
    LogStore.lookup [("backend-p1", LogBuffer.new 10000)] "backend-p1" =
      some (LogBuffer.new 10000) ∧
    10000 < (List.replicate 10001 (LogEntry.mk 0 "line" "backend-p1")).length ∧
    (get_process_logs
      (appendAll [("backend-p1", LogBuffer.new 10000)] "backend-p1"
        (List.replicate 10001 (LogEntry.mk 0 "line" "backend-p1")))
      "backend-p1" none).length = 10000 := by
  refine ⟨by decide, by simp only [List.length_replicate]; omega, ?_⟩
  exact (ringBufferBound [("backend-p1", LogBuffer.new 10000)] "backend-p1"
    (List.replicate 10001 (LogEntry.mk 0 "line" "backend-p1"))
    (by decide) (by simp only [List.length_replicate]; omega)).2.1

theorem LogStore.lookup_filter_ne (st : LogStore) (pid : String) :
    LogStore.lookup (st.filter (fun kv => !(kv.1 == pid))) pid = none := by
  induction st with
  | nil => rfl
  | cons kv rest ih =>
    by_cases h : kv.1 == pid
    · simp only [List.filter_cons, h, Bool.not_true, Bool.false_eq_true, if_false]
      exact ih
    · have h' : (kv.1 == pid) = false := by simpa using h
      simp only [List.filter_cons, h', Bool.not_false, if_pos]
      simp only [LogStore.lookup, List.find?, h'] at ih ⊢
      exact ih

/-- **C9** (Idempotent registration): from a store where `pid` is not
registered, `register` returns `true` and creates the 10,000-entry
buffer; registering again returns `false` and changes nothing;
`unregister` of an unregistered id returns `false`; `unregister` of a
registered id returns `true` and removes its buffer. -/
theorem idempotentRegistration (st : LogStore) (pid : String)
    (h : st.lookup pid = none) :
    (register_process st pid).2 = true ∧
    (register_process (register_process st pid).1 pid).2 = false ∧
    (register_process (register_process st pid).1 pid).1 =
      (register_process st pid).1 ∧
    LogStore.lookup (register_process st pid).1 pid =
      some (LogBuffer.new 10000) ∧
    (unregister_process st pid).2 = false ∧
    (unregister_process (register_process st pid).1 pid).2 = true ∧
    LogStore.lookup (unregister_process (register_process st pid).1 pid).1 pid =
      none := by
  have hsome : (st.lookup pid).isSome = false := by rw [h]; rfl
  have hreg1 : register_process st pid =
      ((pid, LogBuffer.new 10000) :: st, true) := by
    unfold register_process
    rw [hsome]
    simp
  have hlook1 : LogStore.lookup ((pid, LogBuffer.new 10000) :: st) pid =
      some (LogBuffer.new 10000) := by
    simp [LogStore.lookup, List.find?]
  refine ⟨by rw [hreg1], ?_, ?_, ?_, ?_, ?_, ?_⟩
  · rw [hreg1]
    simp [register_process, hlook1]
  · rw [hreg1]
    simp [register_process, hlook1]
  · rw [hreg1, hlook1]
  · unfold unregister_process
    rw [hsome]
  · rw [hreg1]
    simp [unregister_process, hlook1]
  · rw [hreg1]
    exact LogStore.lookup_filter_ne _ _

/-- Witness for **C9** at the empty store. -/
theorem idempotentRegistration_witness :
    (register_process [] "p").2 = true ∧
    (register_process (register_process [] "p").1 "p").2 = false ∧
    (unregister_process [] "p").2 = false ∧
    (unregister_process (register_process [] "p").1 "p").2 = true := by
  obtain ⟨h1, h2, _, _, h5, h6, _⟩ :=
    idempotentRegistration [] "p" (by rfl)
  exact ⟨h1, h2, h5, h6⟩

/-! ## C4: URL selection priority -/

/-- The selection algorithm exactly as the spec words it (spec 4.4):
first candidate in discovery order ending with `/mcp` or `/sse`; else
first containing `/mcp` or `/sse`; else first containing `docs`,
`openapi` or `redoc`; else the last candidate discovered. Written from
the spec's sentence, to be compared with `select_candidate` from the
source. -/
def specSelectBest (urls : List String) : Option String :=
  (urls.find? (fun u => strEndsWith u "/mcp" || strEndsWith u "/sse")).or
  ((urls.find? (fun u => strContains u "/mcp" || strContains u "/sse")).or
  ((urls.find? (fun u =>
      strContains u "docs" || strContains u "openapi" || strContains u "redoc")).or
  urls.getLast?))

theorem select_candidate_eq_spec (urls : List String) (h : urls ≠ []) :
    select_candidate urls = specSelectBest urls := by
  unfold select_candidate specSelectBest
  have hne : urls.isEmpty = false := by
    simpa [List.isEmpty_iff] using h
  rw [hne]
  simp only [Bool.false_eq_true, if_false]
  cases h1 : urls.find? (fun u => strEndsWith u "/mcp" || strEndsWith u "/sse") <;>
    cases h2 : urls.find? (fun u => strContains u "/mcp" || strContains u "/sse") <;>
      cases h3 : urls.find? (fun u =>
        strContains u "docs" || strContains u "openapi" || strContains u "redoc") <;>
        simp [Option.or]

theorem select_candidate_isSome (urls : List String) (h : urls ≠ []) :
    (select_candidate urls).isSome = true := by
  rw [select_candidate_eq_spec urls h]
  unfold specSelectBest
  have hlast : urls.getLast?.isSome = true := by
    cases hu : urls.getLast? with
    | some u => rfl
    | none => exact absurd (List.getLast?_eq_none_iff.mp hu) h
  cases h1 : urls.find? (fun u => strEndsWith u "/mcp" || strEndsWith u "/sse") <;>
    cases h2 : urls.find? (fun u => strContains u "/mcp" || strContains u "/sse") <;>
      cases h3 : urls.find? (fun u =>
        strContains u "docs" || strContains u "openapi" || strContains u "redoc") <;>
        simp [Option.or, hlast]

/-- **C4** (URL selection priority): for every non-empty candidate list
the selection stage picks exactly what the spec's priority chain
describes (first ending with `/mcp`/`/sse`, else first containing them,
else first containing `docs`/`openapi`/`redoc`, else the last candidate),
and for the candidates `["http://localhost:1/a", "http://localhost:2/mcp"]`
in either order, `select_best_url` returns the `/mcp`-suffixed candidate
whatever the originating log line was. -/
theorem urlSelectionPriority (urls : List String) (line : String)
    (h : urls ≠ []) :
    select_candidate urls = specSelectBest urls ∧
    (select_candidate urls).isSome = true ∧
    select_best_url ["http://localhost:1/a", "http://localhost:2/mcp"] line =
      some "http://localhost:2/mcp" ∧
    select_best_url ["http://localhost:2/mcp", "http://localhost:1/a"] line =
      some "http://localhost:2/mcp" := by
  have hc1 : select_candidate ["http://localhost:1/a", "http://localhost:2/mcp"] =
      some "http://localhost:2/mcp" := by decide
  have hc2 : select_candidate ["http://localhost:2/mcp", "http://localhost:1/a"] =
      some "http://localhost:2/mcp" := by decide
  have hadj : mcpAdjust line "http://localhost:2/mcp" = "http://localhost:2/mcp" := by
    unfold mcpAdjust
    have hm : strContains "http://localhost:2/mcp" "/mcp" = true := by decide
    rw [hm]
    simp
  refine ⟨select_candidate_eq_spec urls h, select_candidate_isSome urls h, ?_, ?_⟩
  · unfold select_best_url
    rw [hc1]
    simp [hadj]
  · unfold select_best_url
    rw [hc2]
    simp [hadj]

/-- Witness for **C4** at a concrete candidate list. -/
theorem urlSelectionPriority_witness :
    select_candidate ["http://localhost:8000/docs"] =
      specSelectBest ["http://localhost:8000/docs"] ∧
    select_best_url ["http://localhost:1/a", "http://localhost:2/mcp"] "" =
      some "http://localhost:2/mcp" := by
  have h := urlSelectionPriority ["http://localhost:8000/docs"] ""
    (by simp)
  exact ⟨h.1, h.2.2.1⟩

/-! ## C5: MCP suffix injection -/

/-- Counterexample for **C5** as stated: the line
`"MCP server sse streamable-http"` mentions "MCP server" and the single
candidate `http://localhost:9/` contains neither `/mcp` nor `/sse`, so
the claim's formula ("/sse" appended whenever the line mentions "sse")
predicts `http://localhost:9/sse`; the code checks "streamable-http"
first and returns `http://localhost:9/mcp`. -/
theorem mcpSuffixInjection_counterexample :
    strContains "MCP server sse streamable-http" "MCP server" = true ∧
    strContains "MCP server sse streamable-http" "sse" = true ∧
    strContains "http://localhost:9/" "/mcp" = false ∧
    strContains "http://localhost:9/" "/sse" = false ∧
    select_candidate ["http://localhost:9/"] = some "http://localhost:9/" ∧
    trimTrailingSlashes "http://localhost:9/" ++ "/sse" = "http://localhost:9/sse" ∧
    select_best_url ["http://localhost:9/"] "MCP server sse streamable-http" =
      some "http://localhost:9/mcp" ∧
    select_best_url ["http://localhost:9/"] "MCP server sse streamable-http" ≠
      some "http://localhost:9/sse" := by
  decide

/-- **C5 amended** (MCP suffix injection): when the originating log line
contains "MCP server" and the chosen URL contains neither `/mcp` nor
`/sse`, the returned URL is the chosen URL with trailing slashes trimmed
and `/mcp` appended if the line mentions "streamable-http", otherwise
`/sse` if the line mentions "sse", otherwise `/mcp`; in particular the
single candidate `http://localhost:3/` with an originating line
mentioning "MCP server" and "streamable-http" yields
`http://localhost:3/mcp`. -/
theorem mcpSuffixInjection (urls : List String) (line u : String)
    (hsel : select_candidate urls = some u)
    (hline : strContains line "MCP server" = true)
    (hmcp : strContains u "/mcp" = false)
    (hsse : strContains u "/sse" = false) :
    select_best_url urls line =
      some (trimTrailingSlashes u ++
        (if strContains line "streamable-http" then "/mcp"
         else if strContains line "sse" then "/sse" else "/mcp")) ∧
    select_best_url ["http://localhost:3/"]
      "INFO MCP server started with streamable-http transport" =
      some "http://localhost:3/mcp" := by
  constructor
  · unfold select_best_url
    rw [hsel]
    dsimp only
    unfold mcpAdjust
    rw [hline, hmcp, hsse]
    simp only [Bool.not_false, Bool.and_true, Bool.true_and]
    cases hsh : strContains line "streamable-http" <;>
      cases hs : strContains line "sse" <;> simp [hsh, hs]
  · decide

/-- Witness for **C5 amended** at the concrete scenario from the spec. -/
theorem mcpSuffixInjection_witness :
    select_best_url ["http://localhost:3/"]
      "INFO MCP server started with streamable-http transport" =
      some (trimTrailingSlashes "http://localhost:3/" ++
        (if strContains "INFO MCP server started with streamable-http transport"
            "streamable-http" then "/mcp"
         else if strContains "INFO MCP server started with streamable-http transport"
            "sse" then "/sse" else "/mcp")) := by
  exact (mcpSuffixInjection ["http://localhost:3/"]
    "INFO MCP server started with streamable-http transport"
    "http://localhost:3/" (by decide) (by decide) (by decide) (by decide)).1

/-! ## C7: command-not-found detection -/

theorem strTrimEnd_eq_self_of_reverse_cons (s : String) (c : Char)
    (t : List Char) (hs : s.toList.reverse = c :: t)
    (hw : c.isWhitespace = false) : strTrimEnd s = s := by
  unfold strTrimEnd
  rw [hs]
  rw [List.dropWhile_cons]
  rw [hw]
  simp only [Bool.false_eq_true, if_false]
  have hlist : s.toList = (c :: t).reverse := by
    rw [← hs, List.reverse_reverse]
  rw [← hlist]
  cases s
  rfl

/-- A string ending in `": command not found"` is unchanged by
`trim_end` (its last character is `d`, not whitespace). -/
theorem strTrimEnd_of_cnf (s : String)
    (h : strEndsWith s ": command not found" = true) : strTrimEnd s = s := by
  have hpat : (": command not found").toList.reverse =
      'd' :: "nuof ton dnammoc :".toList := by decide
  unfold strEndsWith at h
  rw [hpat] at h
  cases hs : s.toList.reverse with
  | nil =>
    rw [hs] at h
    simp [listPrefixOf] at h
  | cons c t =>
    rw [hs] at h
    unfold listPrefixOf at h
    have hc : ('d' == c) = true := by
      cases hdc : ('d' == c) with
      | true => rfl
      | false => rw [hdc] at h; simp at h
    have hc' : c = 'd' := (beq_iff_eq.mp hc).symm
    refine strTrimEnd_eq_self_of_reverse_cons s c t hs ?_
    rw [hc']
    decide

/-- **C7** (Command-not-found detection): for every log line with no
echoed script prefix that ends with `": command not found"`, the
pipeline sets the service's status to `error` with the cleaned message,
clears the service's pid, kills the process via the Process Registry,
and stops processing further steps for this line; the line
`"myenv/python: command not found"` yields exactly the message
`"myenv/python: command not found"`. -/
theorem commandNotFoundDetection (script_path raw_line backend_id : String)
    (cfg : List BackendService)
    (hnoecho : strRemoveAll raw_line (script_path ++ ": ") = raw_line)
    (hsuffix : strEndsWith raw_line ": command not found" = true) :
    (commandNotFoundStep script_path raw_line backend_id cfg).config =
      updateFirst (fun b => b.id == backend_id)
        (fun b => { b with status := "error",
                           error := some (clean_error_message raw_line),
                           pid := none }) cfg ∧
    (commandNotFoundStep script_path raw_line backend_id cfg).killed = true ∧
    (commandNotFoundStep script_path raw_line backend_id cfg).halted = true ∧
    clean_error_message "myenv/python: command not found" =
      "myenv/python: command not found" := by
  have hstep : commandNotFoundStep script_path raw_line backend_id cfg =
      { config := updateFirst (fun b => b.id == backend_id)
          (fun b => { b with status := "error",
                             error := some (clean_error_message raw_line),
                             pid := none }) cfg,
        killed := true, halted := true } := by
    unfold commandNotFoundStep
    dsimp only
    rw [hnoecho, strTrimEnd_of_cnf raw_line hsuffix, hsuffix]
    simp
  refine ⟨by rw [hstep], by rw [hstep], by rw [hstep], by decide⟩

/-- Witness for **C7** at the spec's concrete scenario. -/
theorem commandNotFoundDetection_witness :
    (commandNotFoundStep "/tmp/backend_start_1.sh"
      "myenv/python: command not found" "b1"
      [{ id := "b1", name := "svc", command := "myenv/python run.py",
         environment := "myenv", auto_start := false, status := "starting",
         pid := some 77 }]).config =
      updateFirst (fun b => b.id == "b1")
        (fun b => { b with status := "error",
                           error := some (clean_error_message
                             "myenv/python: command not found"),
                           pid := none })
        [{ id := "b1", name := "svc", command := "myenv/python run.py",
           environment := "myenv", auto_start := false, status := "starting",
           pid := some 77 }] ∧
    clean_error_message "myenv/python: command not found" =
      "myenv/python: command not found" := by
  have h := commandNotFoundDetection "/tmp/backend_start_1.sh"
    "myenv/python: command not found" "b1"
    [{ id := "b1", name := "svc", command := "myenv/python run.py",
       environment := "myenv", auto_start := false, status := "starting",
       pid := some 77 }] (by decide) (by decide)
  exact ⟨h.1, h.2.2.2⟩

/-! ## C1: start persistence is reload-before-write -/

/-- **C1** (Reload-before-write on start): the config written at the end
of `start_backend_service_impl` is the config re-read from disk
immediately before the write (`cfg` — including any externally-made
edit), with only the first service whose id matches changed: its status
becomes `running`, its pid the observed OS pid, its start timestamp
`now`, its error cleared, and its host/port/url (and all launch-spec
fields) left untouched; every other position of the collection is
byte-for-byte the re-read one. -/
theorem startReloadBeforeWrite (cfg : List BackendService) (id : String)
    (p : Nat) (now : String) (h : ∃ b ∈ cfg, b.id = id) :
    ∃ k b out r,
      cfg[k]? = some b ∧ b.id = id ∧
      (∀ j, j < k → ∀ b', cfg[j]? = some b' → b'.id ≠ id) ∧
      startFinalize cfg id p now = Except.ok (out, r) ∧
      r.status = "running" ∧ r.pid = some p ∧ r.started_at = some now ∧
      r.error = none ∧
      r.host = b.host ∧ r.port = b.port ∧ r.url = b.url ∧
      r.id = b.id ∧ r.name = b.name ∧ r.command = b.command ∧
      r.environment = b.environment ∧ r.auto_start = b.auto_start ∧
      r.env_file = b.env_file ∧ r.env_vars = b.env_vars ∧
      r.working_directory = b.working_directory ∧
      out = cfg.set k r ∧
      (∀ j, j ≠ k → out[j]? = cfg[j]?) := by
  induction cfg with
  | nil => simp at h
  | cons a as ih =>
    by_cases ha : a.id = id
    · have hba : ((fun b => b.id == id) a) = true := by
        simp [ha]
      have hfind : (a :: as).find? (fun b => b.id == id) = some a := by
        simp [List.find?_cons, hba]
      refine ⟨0, a, runningUpdate a p now :: as, runningUpdate a p now,
        by simp, ha, by intro j hj; omega, ?_, rfl, rfl, rfl, rfl, rfl,
        rfl, rfl, rfl, rfl, rfl, rfl, rfl, rfl, rfl, rfl, rfl, ?_⟩
      · unfold startFinalize
        rw [hfind]
        dsimp only
        rw [@updateFirst_cons_pos BackendService (fun b => b.id == id)
          (fun b => runningUpdate b p now) a as hba]
      · intro j hj
        cases j with
        | zero => exact absurd rfl hj
        | succ j => simp
    · have hba : ((fun b => b.id == id) a) = false := by
        simp [ha]
      have hfind : (a :: as).find? (fun b => b.id == id) =
          as.find? (fun b => b.id == id) := by
        simp [List.find?_cons, hba]
      have h' : ∃ b ∈ as, b.id = id := by
        rcases h with ⟨b, hb, hbid⟩
        rcases List.mem_cons.mp hb with hb | hb
        · exact absurd (hb ▸ hbid) ha
        · exact ⟨b, hb, hbid⟩
      obtain ⟨k, b, out, r, h1, h2, h3, h4, hst, hpid, hsa, herr, hhost,
        hport, hurl, hid, hname, hcmd, henv, hauto, hef, hev, hwd, hset,
        hframe⟩ := ih h'
      have hfin : startFinalize (a :: as) id p now = Except.ok (a :: out, r) := by
        unfold startFinalize at h4 ⊢
        rw [hfind]
        cases hf : as.find? (fun b => b.id == id) with
        | none => rw [hf] at h4; exact absurd h4 (by simp)
        | some b1 =>
          rw [hf] at h4
          dsimp only at h4 ⊢
          have hout : updateFirst (fun b => b.id == id)
              (fun b => runningUpdate b p now) as = out ∧
              runningUpdate b1 p now = r := by
            simpa [Prod.ext_iff] using h4
          rw [@updateFirst_cons_neg BackendService (fun b => b.id == id)
            (fun b => runningUpdate b p now) a as hba, hout.1, hout.2]
      refine ⟨k + 1, b, a :: out, r, by simpa using h1, h2, ?_, hfin,
        hst, hpid, hsa, herr, hhost, hport, hurl, hid, hname, hcmd, henv,
        hauto, hef, hev, hwd, ?_, ?_⟩
      · intro j hj b' hb'
        cases j with
        | zero =>
          have hb'a : a = b' := by simpa using hb'
          rw [← hb'a]
          exact ha
        | succ j =>
          exact h3 j (by omega) b' (by simpa using hb')
      · rw [show (a :: as).set (k + 1) r = a :: as.set k r from rfl, ← hset]
      · intro j hj
        cases j with
        | zero => simp
        | succ j =>
          have := hframe j (by omega)
          simpa using this

/-- Two concrete services used by witnesses and counterexamples. -/
def svcA : BackendService :=
  { id := "a", name := "A", command := "run-a", environment := "base",
    auto_start := false, status := "stopped" }

def svcB : BackendService :=
  { id := "b", name := "B", command := "run-b", environment := "base",
    auto_start := true, status := "stopped", host := some "localhost",
    port := some 4000, url := some "http://localhost:4000/mcp",
    error := some "old error" }

/-- Witness for **C1** on a two-service config where the second service
is the one being started. -/
theorem startReloadBeforeWrite_witness :
    ∃ k b out r,
      ([svcA, svcB])[k]? = some b ∧ b.id = "b" ∧
      (∀ j, j < k → ∀ b', ([svcA, svcB])[j]? = some b' → b'.id ≠ "b") ∧
      startFinalize [svcA, svcB] "b" 4242 "2024-06-01T00:00:00Z" =
        Except.ok (out, r) ∧
      r.status = "running" ∧ r.pid = some 4242 ∧
      r.started_at = some "2024-06-01T00:00:00Z" ∧ r.error = none ∧
      r.host = b.host ∧ r.port = b.port ∧ r.url = b.url ∧
      r.id = b.id ∧ r.name = b.name ∧ r.command = b.command ∧
      r.environment = b.environment ∧ r.auto_start = b.auto_start ∧
      r.env_file = b.env_file ∧ r.env_vars = b.env_vars ∧
      r.working_directory = b.working_directory ∧
      out = [svcA, svcB].set k r ∧
      (∀ j, j ≠ k → out[j]? = ([svcA, svcB])[j]?) :=
  startReloadBeforeWrite [svcA, svcB] "b" 4242 "2024-06-01T00:00:00Z"
    ⟨svcB, by simp, rfl⟩

/-! ## C2: startup reconciliation -/

/-- A service persisted as running with a recorded start timestamp,
whose pid is dead at reconciliation time. -/
def svcRunningDead : BackendService :=
  { id := "b1", name := "svc", command := "run", environment := "base",
    auto_start := false, status := "running", pid := some 4242,
    host := some "localhost", port := some 8000,
    url := some "http://localhost:8000/mcp",
    started_at := some "2024-05-01T00:00:00Z" }

/-- Counterexample for **C2** as stated: reconciling a service persisted
as running with a dead pid clears status/pid/url/host/port but leaves
`started_at` exactly as it was (the source loop never touches it), so
the claimed "start timestamp absent" is false. -/
theorem startupReconciliation_counterexample :
    (reconcileBackends (fun _ => false) [svcRunningDead]).1 =
      [{ svcRunningDead with status := "stopped", pid := none, url := none,
                             host := none, port := none }] ∧
    ((reconcileBackends (fun _ => false) [svcRunningDead]).1[0]?).map
        BackendService.started_at = some (some "2024-05-01T00:00:00Z") ∧
    ((reconcileBackends (fun _ => false) [svcRunningDead]).1[0]?).map
        BackendService.started_at ≠ some none := by
  refine ⟨by decide, by decide, by decide⟩

/-- **C2 amended** (Startup reconciliation): for every persisted service
whose status is "running" and whose pid is absent or dead, after
`initialize_backends`' reconciliation the service's status is "stopped"
and its pid, host, port and url are all absent; its `started_at` (and
every other field) is left unchanged — the source does not clear the
start timestamp, so the `status == Stopped` invariant is restored only
up to `started_at`. -/
theorem startupReconciliation (alive : Nat → Bool)
    (cfg : List BackendService) (i : Nat) (b : BackendService)
    (hb : cfg[i]? = some b) (hrun : b.status = "running")
    (hdead : b.pid = none ∨ ∃ q, b.pid = some q ∧ alive q = false) :
    ∃ b', (reconcileBackends alive cfg).1[i]? = some b' ∧
      b'.status = "stopped" ∧ b'.pid = none ∧ b'.url = none ∧
      b'.host = none ∧ b'.port = none ∧
      b'.started_at = b.started_at ∧ b'.error = b.error ∧
      b'.id = b.id ∧ b'.name = b.name ∧ b'.command = b.command ∧
      b'.environment = b.environment ∧ b'.auto_start = b.auto_start ∧
      b'.env_file = b.env_file ∧ b'.env_vars = b.env_vars ∧
      b'.working_directory = b.working_directory := by
  have hmap : (reconcileBackends alive cfg).1[i]? =
      (cfg[i]?).map (reconcileOne alive) := by
    unfold reconcileBackends
    exact List.getElem?_map ..
  have hbeq : (b.status == "running") = true := by simp [hrun]
  have hrec : reconcileOne alive b =
      { b with status := "stopped", pid := none, url := none,
               host := none, port := none } := by
    unfold reconcileOne
    rw [hbeq]
    rcases hdead with hnone | ⟨q, hq, hdq⟩
    · rw [hnone]
      simp
    · rw [hq]
      dsimp only
      rw [hdq]
      simp
  refine ⟨reconcileOne alive b, ?_, ?_⟩
  · rw [hmap, hb]
    rfl
  · rw [hrec]
    exact ⟨rfl, rfl, rfl, rfl, rfl, rfl, rfl, rfl, rfl, rfl, rfl, rfl,
      rfl, rfl, rfl⟩

/-- Witness for **C2 amended** at the concrete dead-pid service. -/
theorem startupReconciliation_witness :
    ∃ b', (reconcileBackends (fun _ => false) [svcRunningDead]).1[0]? =
        some b' ∧
      b'.status = "stopped" ∧ b'.pid = none ∧ b'.url = none ∧
      b'.host = none ∧ b'.port = none ∧
      b'.started_at = svcRunningDead.started_at ∧
      b'.error = svcRunningDead.error ∧
      b'.id = svcRunningDead.id ∧ b'.name = svcRunningDead.name ∧
      b'.command = svcRunningDead.command ∧
      b'.environment = svcRunningDead.environment ∧
      b'.auto_start = svcRunningDead.auto_start ∧
      b'.env_file = svcRunningDead.env_file ∧
      b'.env_vars = svcRunningDead.env_vars ∧
      b'.working_directory = svcRunningDead.working_directory :=
  startupReconciliation (fun _ => false) [svcRunningDead] 0 svcRunningDead
    (by decide) (by decide) (Or.inr ⟨4242, by decide, rfl⟩)

/-! ## C6: debounce coalescing -/

theorem select_best_url_isSome (urls : List String) (line : String)
    (h : urls ≠ []) : (select_best_url urls line).isSome = true := by
  unfold select_best_url
  cases hc : select_candidate urls with
  | none =>
    have hs := select_candidate_isSome urls h
    rw [hc] at hs
    simp at hs
  | some u => rfl

/-- Three candidate batches 500 ms apart, as in the spec's scenario. -/
def batchesTriple : List Batch :=
  [{ arrival := 0, urls := ["http://localhost:2/mcp"],
     line := "INFO serving http://localhost:2/mcp" },
   { arrival := 500, urls := ["http://localhost:2/mcp"],
     line := "INFO serving http://localhost:2/mcp" },
   { arrival := 1000, urls := ["http://localhost:2/mcp"],
     line := "INFO serving http://localhost:2/mcp" }]

/-- Counterexample for **C6** as stated: with three batches 500 ms
apart, the debounce performs three persisted selections, not exactly
one — `thread().unpark()` does not cancel a sleeping timer thread, so
every batch's selection task fires and saves. -/
theorem debounceCoalescing_counterexample :
    debouncePersistCount batchesTriple = 3 ∧ (3 : Nat) ≠ 1 := by
  refine ⟨by decide, by omega⟩

/-- **C6 amended** (Debounce coalescing): each candidate batch schedules
a selection task 1500 ms out, but a newer batch does not cancel the
previously scheduled one (unparking does not interrupt `sleep`), so
every batch's task fires and persists. When all batches fall within one
1500 ms span — e.g. three batches 500 ms apart — every task fires after
the last batch arrived, so all of them compute the identical selection
over the full accumulated candidate set, and the number of persists is
the number of batches. -/
theorem debounceCoalescing (batches : List Batch)
    (hspan : ∀ b ∈ batches, ∀ b2 ∈ batches, b2.arrival ≤ b.arrival + 1500) :
    (∀ s ∈ firedSelections batches,
      s = select_best_url (batches.flatMap (fun x => x.urls))
        (match batches.getLast? with | some bl => bl.line | none => "")) ∧
    (batches.flatMap (fun x => x.urls) ≠ [] →
      debouncePersistCount batches = batches.length) := by
  have hfil : ∀ b ∈ batches,
      batches.filter (fun b2 => b2.arrival ≤ b.arrival + 1500) = batches := by
    intro b hb
    rw [List.filter_eq_self]
    intro b2 hb2
    exact decide_eq_true (hspan b hb b2 hb2)
  have hacc : ∀ b ∈ batches,
      accumulatedUrlsAt batches (b.arrival + 1500) =
        batches.flatMap (fun x => x.urls) := by
    intro b hb
    unfold accumulatedUrlsAt
    rw [hfil b hb]
  have hline : ∀ b ∈ batches,
      lastLineAt batches (b.arrival + 1500) =
        (match batches.getLast? with | some bl => bl.line | none => "") := by
    intro b hb
    unfold lastLineAt
    rw [hfil b hb]
  have heach : ∀ s ∈ firedSelections batches,
      s = select_best_url (batches.flatMap (fun x => x.urls))
        (match batches.getLast? with | some bl => bl.line | none => "") := by
    intro s hs
    unfold firedSelections at hs
    obtain ⟨b, hb, rfl⟩ := List.mem_map.mp hs
    rw [hacc b hb, hline b hb]
  refine ⟨heach, ?_⟩
  intro hne
  unfold debouncePersistCount
  have hall : (firedSelections batches).filter Option.isSome =
      firedSelections batches := by
    rw [List.filter_eq_self]
    intro s hs
    rw [heach s hs]
    exact select_best_url_isSome _ _ hne
  rw [hall]
  unfold firedSelections
  exact List.length_map ..

/-- Witness for **C6 amended** at the three concrete batches. -/
theorem debounceCoalescing_witness :
    (∀ s ∈ firedSelections batchesTriple,
      s = select_best_url (batchesTriple.flatMap (fun x => x.urls))
        (match batchesTriple.getLast? with | some bl => bl.line | none => "")) ∧
    debouncePersistCount batchesTriple = batchesTriple.length := by
  obtain ⟨h1, h2⟩ := debounceCoalescing batchesTriple (by decide)
  exact ⟨h1, h2 (by decide)⟩

/-! ## C8: create-service validation -/

/-- A command validator that approves everything (stands in for an
`Ok(())` run of `validate_command_input`). -/
def vOK : String → Except String Unit := fun _ => Except.ok ()

/-- **C8** (Create-service validation): every error leaves the persisted
collection unchanged; a missing required field (empty name, command or
environment) is rejected; a duplicate name (with the required fields
present) fails with exactly "A backend with this name already exists";
on success the returned record carries the freshly generated non-empty
id and status "stopped", and is appended to the collection. -/
theorem createServiceValidation (cfg : List BackendService)
    (req : BackendService) (freshId : String)
    (validate : String → Except String Unit) :
    (∀ msg, (createBackendService cfg req freshId validate).1 =
        Except.error msg →
      (createBackendService cfg req freshId validate).2 = cfg) ∧
    (req.name = "" ∨ req.command = "" ∨ req.environment = "" →
      ∃ msg, (createBackendService cfg req freshId validate).1 =
        Except.error msg) ∧
    (req.name ≠ "" → req.command ≠ "" → req.environment ≠ "" →
      (∃ b ∈ cfg, b.name = req.name) →
      (createBackendService cfg req freshId validate).1 =
        Except.error "A backend with this name already exists") ∧
    (req.name ≠ "" → req.command ≠ "" → req.environment ≠ "" →
      (∀ b ∈ cfg, b.name ≠ req.name) →
      validate req.command = Except.ok () → freshId ≠ "" →
      ∃ nb, (createBackendService cfg req freshId validate).1 =
          Except.ok nb ∧
        nb.id = freshId ∧ nb.id ≠ "" ∧ nb.status = "stopped" ∧
        nb.pid = none ∧ nb.url = none ∧ nb.started_at = none ∧
        nb.name = req.name ∧ nb.command = req.command ∧
        nb.environment = req.environment ∧
        (createBackendService cfg req freshId validate).2 = cfg ++ [nb]) := by
  refine ⟨?_, ?_, ?_, ?_⟩
  · intro msg hmsg
    unfold createBackendService at hmsg ⊢
    split_ifs at hmsg ⊢
    any_goals rfl
    cases hv : validate req.command with
    | error e => rfl
    | ok u =>
      rw [hv] at hmsg
      simp at hmsg
  · intro h
    unfold createBackendService
    split_ifs with h1 h2 h3 h4
    · exact ⟨_, rfl⟩
    · exact ⟨_, rfl⟩
    · exact ⟨_, rfl⟩
    · exact ⟨_, rfl⟩
    · rcases h with h | h | h
      · exact absurd h h1
      · exact absurd h h2
      · exact absurd h h3
  · intro hn hc he hdup
    have hd : cfg.any (fun b => b.name == req.name) = true := by
      obtain ⟨b, hb, hbn⟩ := hdup
      exact List.any_eq_true.mpr ⟨b, hb, by simp [hbn]⟩
    unfold createBackendService
    rw [if_neg hn, if_neg hc, if_neg he, if_pos hd]
  · intro hn hc he hnodup hv hfresh
    have hd : cfg.any (fun b => b.name == req.name) = false := by
      rw [List.any_eq_false]
      intro b hb
      simp [hnodup b hb]
    unfold createBackendService
    rw [if_neg hn, if_neg hc, if_neg he]
    rw [hd]
    simp only [Bool.false_eq_true, if_false]
    rw [hv]
    refine ⟨_, rfl, rfl, ?_, rfl, rfl, rfl, rfl, rfl, rfl, rfl, rfl⟩
    exact hfresh

/-- The spec scenario's create request `{name:"X", command:"foo --flag",
environment:"base"}`. -/
def reqX : BackendService :=
  { id := "", name := "X", command := "foo --flag", environment := "base",
    auto_start := false, status := "" }

/-- Witness for **C8**: first create succeeds with a fresh id and status
"stopped"; a second create with the same name fails with exactly the
duplicate-name message. -/
theorem createServiceValidation_witness :
    (∃ nb, (createBackendService [] reqX "id-1" vOK).1 = Except.ok nb ∧
      nb.id = "id-1" ∧ nb.id ≠ "" ∧ nb.status = "stopped" ∧
      nb.pid = none ∧ nb.url = none ∧ nb.started_at = none ∧
      nb.name = reqX.name ∧ nb.command = reqX.command ∧
      nb.environment = reqX.environment ∧
      (createBackendService [] reqX "id-1" vOK).2 = [] ++ [nb]) ∧
    (createBackendService [{ reqX with id := "id-1", status := "stopped" }]
        reqX "id-2" vOK).1 =
      Except.error "A backend with this name already exists" := by
  constructor
  · exact (createServiceValidation [] reqX "id-1" vOK).2.2.2
      (by decide) (by decide) (by decide) (by simp) rfl (by decide)
  · exact (createServiceValidation
      [{ reqX with id := "id-1", status := "stopped" }] reqX "id-2" vOK).2.2.1
      (by decide) (by decide) (by decide)
      ⟨{ reqX with id := "id-1", status := "stopped" }, by simp, rfl⟩

/-! ## C10: update is a partial overwrite -/

/-- **C10** (Update is a partial overwrite): every successful update of
an existing service replaces name, command, environment, auto_start and
error with the incoming values (error may thereby become absent);
replaces each of working_directory, env_file, env_vars, host, port, url
only when the incoming value is present, keeping the stored value when
it is absent; and never changes the stored id, status, pid or
started_at. The saved collection is the original with only that one
position replaced. -/
theorem updatePartialOverwrite (cfg : List BackendService)
    (incoming : BackendService) (validate : String → Except String Unit)
    (upd : BackendService) (cfg2 : List BackendService)
    (h : updateBackendService cfg incoming validate = Except.ok (upd, cfg2)) :
    ∃ i old, cfg.findIdx? (fun b => b.id == incoming.id) = some i ∧
      cfg[i]? = some old ∧
      upd.name = incoming.name ∧ upd.command = incoming.command ∧
      upd.environment = incoming.environment ∧
      upd.auto_start = incoming.auto_start ∧ upd.error = incoming.error ∧
      (incoming.working_directory.isSome = true →
        upd.working_directory = incoming.working_directory) ∧
      (incoming.working_directory = none →
        upd.working_directory = old.working_directory) ∧
      (incoming.env_file.isSome = true → upd.env_file = incoming.env_file) ∧
      (incoming.env_file = none → upd.env_file = old.env_file) ∧
      (incoming.env_vars.isSome = true → upd.env_vars = incoming.env_vars) ∧
      (incoming.env_vars = none → upd.env_vars = old.env_vars) ∧
      (incoming.host.isSome = true → upd.host = incoming.host) ∧
      (incoming.host = none → upd.host = old.host) ∧
      (incoming.port.isSome = true → upd.port = incoming.port) ∧
      (incoming.port = none → upd.port = old.port) ∧
      (incoming.url.isSome = true → upd.url = incoming.url) ∧
      (incoming.url = none → upd.url = old.url) ∧
      upd.id = old.id ∧ upd.status = old.status ∧ upd.pid = old.pid ∧
      upd.started_at = old.started_at ∧
      cfg2 = cfg.set i upd := by
  unfold updateBackendService at h
  cases hidx : cfg.findIdx? (fun b => b.id == incoming.id) with
  | none => rw [hidx] at h; exact absurd h (by simp)
  | some i =>
    rw [hidx] at h
    dsimp only at h
    cases hv : (if incoming.command ≠ "" then validate incoming.command
                else Except.ok ()) with
    | error e => rw [hv] at h; exact absurd h (by simp)
    | ok u =>
      rw [hv] at h
      cases hold : cfg[i]? with
      | none => rw [hold] at h; exact absurd h (by simp)
      | some old =>
        rw [hold] at h
        dsimp only at h
        have hpair := (Except.ok.inj h)
        have hupd := congrArg Prod.fst hpair
        have hcfg2 := congrArg Prod.snd hpair
        dsimp only at hupd hcfg2
        subst hupd
        subst hcfg2
        refine ⟨i, old, rfl, hold, rfl, rfl, rfl, rfl, rfl, ?_, ?_, ?_,
          ?_, ?_, ?_, ?_, ?_, ?_, ?_, ?_, ?_, rfl, rfl, rfl, rfl, rfl⟩
        all_goals intro hx
        all_goals simp [hx]

/-- A partial update request for service "b": clears the old error,
replaces host, and leaves every other optional field absent. -/
def incomingU : BackendService :=
  { id := "b", name := "B2", command := "run-b2", environment := "base2",
    auto_start := false, status := "ignored", host := some "127.0.0.1" }

/-- The record `update_backend_service_impl` produces for `incomingU`
applied to `svcB`. -/
def updU : BackendService :=
  { id := "b", name := "B2", command := "run-b2", environment := "base2",
    auto_start := false, status := "stopped", host := some "127.0.0.1",
    port := some 4000, url := some "http://localhost:4000/mcp" }

/-- Witness for **C10** at a concrete successful partial update. -/
theorem updatePartialOverwrite_witness :
    ∃ i old, [svcB].findIdx? (fun b => b.id == incomingU.id) = some i ∧
      ([svcB])[i]? = some old ∧
      updU.name = incomingU.name ∧ updU.command = incomingU.command ∧
      updU.environment = incomingU.environment ∧
      updU.auto_start = incomingU.auto_start ∧ updU.error = incomingU.error ∧
      (incomingU.working_directory.isSome = true →
        updU.working_directory = incomingU.working_directory) ∧
      (incomingU.working_directory = none →
        updU.working_directory = old.working_directory) ∧
      (incomingU.env_file.isSome = true → updU.env_file = incomingU.env_file) ∧
      (incomingU.env_file = none → updU.env_file = old.env_file) ∧
      (incomingU.env_vars.isSome = true → updU.env_vars = incomingU.env_vars) ∧
      (incomingU.env_vars = none → updU.env_vars = old.env_vars) ∧
      (incomingU.host.isSome = true → updU.host = incomingU.host) ∧
      (incomingU.host = none → updU.host = old.host) ∧
      (incomingU.port.isSome = true → updU.port = incomingU.port) ∧
      (incomingU.port = none → updU.port = old.port) ∧
      (incomingU.url.isSome = true → updU.url = incomingU.url) ∧
      (incomingU.url = none → updU.url = old.url) ∧
      updU.id = old.id ∧ updU.status = old.status ∧ updU.pid = old.pid ∧
      updU.started_at = old.started_at ∧
      [updU] = [svcB].set i updU :=
  updatePartialOverwrite [svcB] incomingU vOK updU [updU] (by rfl)

end Backends
